import Mathlib

/-!
Verification development for the chromatogram peak-detection core of the
`gc_graph_analyzer` repository (`app/chromatogram/processing.py`).

The Python code operates on numpy float arrays; the shallow embedding models
intensities and times as rational numbers (`ℚ`) and arrays as `List ℚ`.
The library calls used by `detect_peaks_and_areas` are embedded faithfully
from their reference implementations:

* `np.percentile` (default linear interpolation method),
* `np.median`, `np.max`,
* `scipy.signal.find_peaks` with `height`, `prominence` and `distance`
  arguments (`_local_maxima_1d`, `_select_by_property`,
  `_select_by_peak_distance`, `_peak_prominences`),
* `scipy.signal.peak_widths` with `rel_height=0.5` (`_peak_widths`),
* `np.trapezoid`,
* Python `round(v, 2)` (round-half-to-even on the exact rational value).

Imperative while-loops are embedded as fuel-indexed recursions; every call
site supplies fuel that dominates the loop bound, so the fuel never runs out.
-/

/-- Round a rational to the nearest integer, ties to even (the rounding used
by Python `round` and numpy on exact values). -/
def roundHalfEven (x : ℚ) : ℤ :=
  let f := ⌊x⌋
  if x - f < 1/2 then f
  else if 1/2 < x - f then f + 1
  else if f % 2 = 0 then f else f + 1

/-- Model of Python `round(v, 2)`: round to two decimal places. -/
def round2 (x : ℚ) : ℚ := (roundHalfEven (x * 100) : ℚ) / 100

/-- Stable insertion of `a` into `l` with respect to the boolean comparison
`le`: `a` is placed before the first element `b` with `le a b`. -/
def insOrd {α : Type} (le : α → α → Bool) (a : α) : List α → List α
  | [] => [a]
  | b :: bs => if le a b then a :: b :: bs else b :: insOrd le a bs

/-- Stable insertion sort with respect to the boolean comparison `le`.
Stable sorts agree extensionally, so this models both `numpy.sort` (on
values) and Python `sorted`. -/
def sortOrd {α : Type} (le : α → α → Bool) : List α → List α
  | [] => []
  | a :: as => insOrd le a (sortOrd le as)

/-- Ascending sort of rationals, modelling `np.sort`. -/
def sortAsc (l : List ℚ) : List ℚ := sortOrd (fun a b => decide (a ≤ b)) l

/-- Model of `np.percentile(x, q)` with the default linear-interpolation
method: virtual index `h = q/100 * (n-1)` into the sorted data, linearly
interpolated between the two neighbouring order statistics. -/
def percentile (x : List ℚ) (q : ℚ) : ℚ :=
  let s := sortAsc x
  let h : ℚ := q * ((s.length : ℚ) - 1) / 100
  let lo : ℕ := (⌊h⌋).toNat
  s.getD lo 0 + (h - ⌊h⌋) * (s.getD (lo + 1) 0 - s.getD lo 0)

/-- Model of `np.median`: middle order statistic, or the mean of the two
middle order statistics for even length. -/
def median (x : List ℚ) : ℚ :=
  let s := sortAsc x
  if s.length % 2 = 1 then s.getD (s.length / 2) 0
  else (s.getD (s.length / 2 - 1) 0 + s.getD (s.length / 2) 0) / 2

/-- Model of `np.max` on a nonempty array (the empty case raises in numpy and
is never reached through the embedded entry points). -/
def npMax : List ℚ → ℚ
  | [] => 0
  | a :: as => as.foldl max a

/-- Inner while-loop of scipy `_local_maxima_1d`: starting at `i`, advance
while `i < iMax` and `x[i] = v` (plateau scan). -/
def plateauEnd (x : List ℚ) (iMax : ℕ) (v : ℚ) : ℕ → ℕ → ℕ
  | i, 0 => i
  | i, fuel + 1 =>
    if i < iMax ∧ x.getD i 0 = v then plateauEnd x iMax v (i + 1) fuel else i

/-- Main loop of scipy `_local_maxima_1d`: scan `i` from `1` to `iMax - 1`
(`iMax = n - 1`); a sample strictly above its left neighbour that is followed
(after an optional plateau of equal values) by a strictly smaller sample is a
local maximum, reported at the plateau midpoint. -/
def localMaximaGo (x : List ℚ) (iMax : ℕ) : ℕ → ℕ → List ℕ
  | _, 0 => []
  | i, fuel + 1 =>
    if i < iMax then
      if x.getD (i - 1) 0 < x.getD i 0 then
        let iA := plateauEnd x iMax (x.getD i 0) (i + 1) x.length
        if x.getD iA 0 < x.getD i 0 then
          ((i + (iA - 1)) / 2) :: localMaximaGo x iMax (iA + 1) fuel
        else localMaximaGo x iMax (i + 1) fuel
      else localMaximaGo x iMax (i + 1) fuel
    else []

/-- Model of scipy `_local_maxima_1d`: indices of the strict local maxima of
`x` (plateaus reported at their midpoint). -/
def localMaxima (x : List ℚ) : List ℕ :=
  localMaximaGo x (x.length - 1) 1 x.length

/-- Model of `np.argsort` on the priority array (ascending, determinised as
the stable order on ties). -/
def argsortQ (v : List ℚ) : List ℕ :=
  sortOrd (fun a b => decide (v.getD a 0 ≤ v.getD b 0)) (List.range v.length)

/-- Left inner while-loop of scipy `_select_by_peak_distance`: walk `k`
downwards from `j - 1`, clearing `keep[k]` while `peaks[j] - peaks[k]` is
below the distance. -/
def clearLeftGo (peaks : List ℕ) (dist pj : ℤ) : List Bool → ℕ → ℕ → List Bool
  | keep, _, 0 => keep
  | keep, k, fuel + 1 =>
    if pj - (peaks.getD k 0 : ℤ) < dist then
      let keep2 := keep.set k false
      if k = 0 then keep2 else clearLeftGo peaks dist pj keep2 (k - 1) fuel
    else keep

/-- Right inner while-loop of scipy `_select_by_peak_distance`: walk `k`
upwards from `j + 1`, clearing `keep[k]` while `peaks[k] - peaks[j]` is below
the distance. -/
def clearRightGo (peaks : List ℕ) (dist pj : ℤ) : List Bool → ℕ → ℕ → List Bool
  | keep, _, 0 => keep
  | keep, k, fuel + 1 =>
    if k < peaks.length ∧ (peaks.getD k 0 : ℤ) - pj < dist then
      clearRightGo peaks dist pj (keep.set k false) (k + 1) fuel
    else keep

/-- Outer loop of scipy `_select_by_peak_distance`: visit peak positions in
order of decreasing priority (`js` is the reversed argsort); a still-kept
peak clears all kept peaks closer than the distance on both sides. -/
def distanceLoop (peaks : List ℕ) (dist : ℤ) : List ℕ → List Bool → List Bool
  | [], keep => keep
  | j :: js, keep =>
    if keep.getD j false then
      let pj : ℤ := (peaks.getD j 0 : ℤ)
      let keep1 := if j = 0 then keep else clearLeftGo peaks dist pj keep (j - 1) j
      let keep2 := clearRightGo peaks dist pj keep1 (j + 1) peaks.length
      distanceLoop peaks dist js keep2
    else distanceLoop peaks dist js keep

/-- Model of scipy `_select_by_peak_distance`: boolean keep-mask over
`peaks`, with `priority` the peak heights. -/
def selectByPeakDistance (peaks : List ℕ) (priority : List ℚ) (dist : ℤ) : List Bool :=
  distanceLoop peaks dist (argsortQ priority).reverse (List.replicate peaks.length true)

/-- Apply a boolean keep-mask to a list (`peaks[keep]` in numpy). -/
def applyKeep {α : Type} (xs : List α) (keep : List Bool) : List α :=
  (xs.zip keep).filterMap (fun p => if p.2 then some p.1 else none)

/-- Left scan of scipy `_peak_prominences`: walk left from the peak while
samples do not exceed the peak height, tracking the running minimum and its
position (the left base). -/
def promLeft (x : List ℚ) (xp : ℚ) : ℕ → ℚ → ℕ → ℕ → ℚ × ℕ
  | _, lmin, base, 0 => (lmin, base)
  | i, lmin, base, fuel + 1 =>
    if x.getD i 0 ≤ xp then
      let lmin2 := if x.getD i 0 < lmin then x.getD i 0 else lmin
      let base2 := if x.getD i 0 < lmin then i else base
      if i = 0 then (lmin2, base2) else promLeft x xp (i - 1) lmin2 base2 fuel
    else (lmin, base)

/-- Right scan of scipy `_peak_prominences`: walk right from the peak up to
`iMax` while samples do not exceed the peak height, tracking the running
minimum and its position (the right base). -/
def promRight (x : List ℚ) (xp : ℚ) (iMax : ℕ) : ℕ → ℚ → ℕ → ℕ → ℚ × ℕ
  | _, rmin, base, 0 => (rmin, base)
  | i, rmin, base, fuel + 1 =>
    if i ≤ iMax ∧ x.getD i 0 ≤ xp then
      let rmin2 := if x.getD i 0 < rmin then x.getD i 0 else rmin
      let base2 := if x.getD i 0 < rmin then i else base
      promRight x xp iMax (i + 1) rmin2 base2 fuel
    else (rmin, base)

/-- Data computed by scipy `_peak_prominences` for one peak:
`(left_min, left_base, right_min, right_base)`. -/
def promBundle (x : List ℚ) (p : ℕ) : ℚ × ℕ × ℚ × ℕ :=
  let xp := x.getD p 0
  let lr := promLeft x xp p xp p (x.length + 1)
  let rr := promRight x xp (x.length - 1) p xp p (x.length + 1)
  (lr.1, lr.2, rr.1, rr.2)

/-- Topographic prominence of the peak at index `p`
(`x[p] - max(left_min, right_min)`). -/
def prominenceOf (x : List ℚ) (p : ℕ) : ℚ :=
  x.getD p 0 - max (promBundle x p).1 (promBundle x p).2.2.1

/-- Left while-loop of scipy `_peak_widths`: walk left from the peak while
`iMin < i` and the sample is above the evaluation height. -/
def widthLeftIdx (x : List ℚ) (iMin : ℕ) (h : ℚ) : ℕ → ℕ → ℕ
  | i, 0 => i
  | i, fuel + 1 =>
    if iMin < i ∧ h < x.getD i 0 then widthLeftIdx x iMin h (i - 1) fuel else i

/-- Right while-loop of scipy `_peak_widths`: walk right from the peak while
`i < iMax` and the sample is above the evaluation height. -/
def widthRightIdx (x : List ℚ) (iMax : ℕ) (h : ℚ) : ℕ → ℕ → ℕ
  | i, 0 => i
  | i, fuel + 1 =>
    if i < iMax ∧ h < x.getD i 0 then widthRightIdx x iMax h (i + 1) fuel else i

/-- Evaluation height of scipy `peak_widths` with `rel_height = 0.5`:
`x[peak] - prominence * 0.5` (half-prominence level). -/
def evalHeight (x : List ℚ) (p : ℕ) : ℚ :=
  x.getD p 0 - prominenceOf x p * (1 / 2)

/-- Interpolated fractional left boundary `left_ips` of scipy
`peak_widths(x, [p], rel_height=0.5)`. -/
def leftIpOf (x : List ℚ) (p : ℕ) : ℚ :=
  let h := evalHeight x p
  let iMin := (promBundle x p).2.1
  let i := widthLeftIdx x iMin h p (x.length + 1)
  if x.getD i 0 < h then (i : ℚ) + (h - x.getD i 0) / (x.getD (i + 1) 0 - x.getD i 0)
  else (i : ℚ)

/-- Interpolated fractional right boundary `right_ips` of scipy
`peak_widths(x, [p], rel_height=0.5)`. -/
def rightIpOf (x : List ℚ) (p : ℕ) : ℚ :=
  let h := evalHeight x p
  let iMax := (promBundle x p).2.2.2
  let i := widthRightIdx x iMax h p (x.length + 1)
  if x.getD i 0 < h then (i : ℚ) - (h - x.getD i 0) / (x.getD (i - 1) 0 - x.getD i 0)
  else (i : ℚ)

/-- The clamped integer start boundary of the processing loop:
`max(0, min(len(time) - 1, int(np.floor(left))))`. -/
def clampedStart (time x : List ℚ) (p : ℕ) : ℤ :=
  max 0 (min ((time.length : ℤ) - 1) ⌊leftIpOf x p⌋)

/-- The clamped integer end boundary of the processing loop:
`max(0, min(len(time) - 1, int(np.ceil(right))))`. -/
def clampedEnd (time x : List ℚ) (p : ℕ) : ℤ :=
  max 0 (min ((time.length : ℤ) - 1) ⌈rightIpOf x p⌉)

/-- Boundary resolution for one candidate peak, as in the loop body of
`detect_peaks_and_areas`: clamp the interpolated boundaries, then reject the
candidate (`continue`) when `start_idx >= end_idx or end_idx >= len(time)`;
otherwise return the resolved integer bounds. -/
def resolveBounds (time x : List ℚ) (p : ℕ) : Option (ℕ × ℕ) :=
  if clampedEnd time x p ≤ clampedStart time x p ∨ (time.length : ℤ) ≤ clampedEnd time x p
  then none
  else some ((clampedStart time x p).toNat, (clampedEnd time x p).toNat)

/-- Model of `np.trapezoid(y, x)`: trapezoidal numerical integration of the
samples `y` against the sample positions `x`. -/
def trapezoid : List ℚ → List ℚ → ℚ
  | y1 :: y2 :: ys, t1 :: t2 :: ts => (t2 - t1) * (y1 + y2) / 2 + trapezoid (y2 :: ys) (t2 :: ts)
  | _, _ => 0

/-- Output record of `detect_peaks_and_areas` (the Python dict appended to
`results`). -/
structure Peak where
  peak_index : ℕ
  height : ℚ
  retention_time : ℚ
  area : ℚ
  start_time : ℚ
  end_time : ℚ
deriving DecidableEq, Repr

/-- Construction of the emitted peak record for a candidate with resolved
bounds: all fields rounded to two decimals, `area` the trapezoidal integral
of `intensity[start : end+1]` against `time[start : end+1]`. -/
def emitPeak (time x : List ℚ) (p s e : ℕ) : Peak :=
  { peak_index := p
  , height := round2 (x.getD p 0)
  , retention_time := round2 (time.getD p 0)
  , area := round2 (trapezoid ((x.drop s).take (e + 1 - s)) ((time.drop s).take (e + 1 - s)))
  , start_time := round2 (time.getD s 0)
  , end_time := round2 (time.getD e 0) }

/-- Local maxima passing the height threshold
(`height = np.percentile(intensity, 95)`, inclusive as in scipy
`_select_by_property`). -/
def heightFiltered (x : List ℚ) : List ℕ :=
  (localMaxima x).filter (fun p => decide (percentile x 95 ≤ x.getD p 0))

/-- Keep-mask of the distance filter over the height-passing candidates
(`distance = 5`, priority = peak heights). -/
def distanceKeep (x : List ℚ) : List Bool :=
  selectByPeakDistance (heightFiltered x) ((heightFiltered x).map (fun p => x.getD p 0)) 5

/-- Candidates surviving the distance filter. -/
def distanceFiltered (x : List ℚ) : List ℕ :=
  applyKeep (heightFiltered x) (distanceKeep x)

/-- Model of the `scipy.signal.find_peaks(intensity, height=.., prominence=..,
distance=5)` call of `detect_peaks_and_areas`: height filter, then distance
filter, then prominence filter (`prominence = np.percentile(intensity, 90)`,
inclusive). -/
def find_peaks (x : List ℚ) : List ℕ :=
  (distanceFiltered x).filter (fun p => decide (percentile x 90 ≤ prominenceOf x p))

/-- The result-building loop of `detect_peaks_and_areas`: candidates whose
apex index reaches past `time` are skipped, boundary resolution may reject a
candidate, and surviving candidates are emitted as `Peak` records. -/
def detectCore (time x : List ℚ) : List Peak :=
  (find_peaks x).filterMap (fun p =>
    if time.length ≤ p then none
    else (resolveBounds time x p).map (fun se => emitPeak time x p se.1 se.2))

/-- Model of `ChromatogramProcessor.detect_peaks_and_areas`. The function has
no explicit input validation: on an empty intensity array the initial numpy
reductions (`np.max`, `np.percentile`) raise, modelled as `none`; any other
input produces a result list. -/
def detect_peaks_and_areas (time x : List ℚ) : Option (List Peak) :=
  if x.isEmpty then none else some (detectCore time x)

example : detect_peaks_and_areas [0, 1, 2] [0, 10, 0] =
    some [⟨1, 10, 1, 10, 0, 2⟩] := by with_unfolding_all rfl

example : detect_peaks_and_areas [0, 1, 2] [0, 10, 9, 8, 7, 0] =
    some [⟨1, 10, 1, 14.5, 0, 2⟩] := by with_unfolding_all rfl

example : (⌈rightIpOf [0, 10, 9, 8, 7, 0] 1⌉ : ℤ) = 5 := by with_unfolding_all rfl

/-- Decimal digits of the fractional part of a two-decimal value, rendered
the way Python `str` shows the float: a single digit when the hundredths
digit is zero (`3.1`, `3.0`), two digits otherwise (`3.14`, `3.05`). -/
def fracStr (frac : ℕ) : String :=
  if frac % 10 = 0 then toString (frac / 10)
  else if frac < 10 then "0" ++ toString frac
  else toString frac

/-- Model of Python `str(v)` for the two-decimal float values stored in the
peak records (`str` prints the shortest decimal representation, which for a
`round(v, 2)` result is the value with at most two decimals and at least
one). -/
def pyFloatStr (q : ℚ) : String :=
  let sign := if q < 0 then "-" else ""
  let cents := (roundHalfEven (|q| * 100)).toNat
  sign ++ toString (cents / 100) ++ "." ++ fracStr (cents % 100)

/-- Three-digit zero-padded group used by the grouped-thousands format. -/
def padThree (m : ℕ) : String :=
  if m < 10 then "00" ++ toString m
  else if m < 100 then "0" ++ toString m
  else toString m

/-- Grouped-thousands rendering of a natural number (`{:,}` grouping). -/
def groupNum : ℕ → ℕ → String
  | 0, n => toString n
  | fuel + 1, n =>
    if n < 1000 then toString n
    else groupNum fuel (n / 1000) ++ "," ++ padThree (n % 1000)

/-- Two-digit zero-padded fractional part. -/
def twoDigits (m : ℕ) : String :=
  if m < 10 then "0" ++ toString m else toString m

/-- Model of the Python format spec `{v:,.2f}`: grouped-thousands integer
part and exactly two decimals. -/
def fmtGrouped2 (q : ℚ) : String :=
  let sign := if q < 0 then "-" else ""
  let cents := (roundHalfEven (|q| * 100)).toNat
  sign ++ groupNum cents (cents / 100) ++ "." ++ twoDigits (cents % 100)

/-- Per-peak report line of `summarize_trace`:
`f"- Peak at {p['retention_time']}s | Area: {p['area']} | Height: {p['height']}"`. -/
def peakLine (p : Peak) : String :=
  "- Peak at " ++ pyFloatStr p.retention_time ++ "s | Area: " ++ pyFloatStr p.area
    ++ " | Height: " ++ pyFloatStr p.height

/-- Comparison used by `sorted(peaks_info, key=lambda p: p['height'],
reverse=True)`: `a` may stay before `b` exactly when `b.height ≤ a.height`. -/
def peakLE (a b : Peak) : Bool := decide (b.height ≤ a.height)

/-- Model of `sorted(peaks_info, key=lambda p: p['height'], reverse=True)`:
Python `sorted` is a stable sort, embedded as the stable insertion sort
`sortOrd` (extensionally equal to any stable sort with this comparison). -/
def top_peaks (ps : List Peak) : List Peak := sortOrd peakLE ps

/-- The `summary_lines` list built by `summarize_trace`, in source order:
title, total count, max intensity, baseline, blank line, header line, then
one line per peak in descending-height order. -/
def summary_lines (time x : List ℚ) (peaks_info : List Peak) (filename : String) :
    List String :=
  [ "Chromatogram Summary: " ++ filename
  , "Total peaks detected: " ++ toString peaks_info.length
  , "Max intensity: " ++ fmtGrouped2 (npMax x)
  , "Estimated baseline: " ++ fmtGrouped2 (median x)
  , ""
  , "All the peaks observed in the chromatograph" ]
  ++ (top_peaks peaks_info).map peakLine

/-- The `summary` object of the JSON record written by `summarize_trace`. -/
structure TraceSummary where
  total_peaks : ℕ
  max_intensity : ℚ
  baseline_intensity : ℚ
  peaks : List Peak
deriving DecidableEq

/-- The JSON record persisted by `summarize_trace` (file-system writing
itself is an I/O boundary; the record content is modelled as a value). -/
structure JsonRecord where
  file_name : String
  summary : TraceSummary
  trace_data : List (ℚ × ℚ)
deriving DecidableEq

/-- Model of `ChromatogramProcessor.summarize_trace`: returns the natural
language report string together with the JSON record it persists. -/
def summarize_trace (time x : List ℚ) (peaks_info : List Peak) (filename : String) :
    String × JsonRecord :=
  let baseline := median x
  let record : JsonRecord :=
    { file_name := filename
    , summary :=
      { total_peaks := peaks_info.length
      , max_intensity := npMax x
      , baseline_intensity := baseline
      , peaks := peaks_info }
    , trace_data := time.zip x }
  (String.intercalate "\n" (summary_lines time x peaks_info filename), record)

/-- Model of `ChromatogramProcessor.process_cdf_file` after the trace has
been decoded from the file (`load_cdf_data` is an I/O boundary; the decoded
`(time, intensity)` pair is taken as input). A failure of the detection call
propagates (`none`); an empty peak list short-circuits to the terminal
message without invoking `summarize_trace`, so no JSON record is produced. -/
def process_cdf_file (time x : List ℚ) (filename : String) :
    Option (String × Option JsonRecord) :=
  match detect_peaks_and_areas time x with
  | none => none
  | some peaks_info =>
    if peaks_info.isEmpty then some ("No peaks found.", none)
    else
      let res := summarize_trace time x peaks_info filename
      some (res.1, some res.2)

example : pyFloatStr (14.5 : ℚ) = "14.5" := by with_unfolding_all rfl
example : pyFloatStr (3.14 : ℚ) = "3.14" := by with_unfolding_all rfl
example : fmtGrouped2 (1234567.5 : ℚ) = "1,234,567.50" := by with_unfolding_all rfl

/-- Every record in `detectCore` comes from a `find_peaks` candidate below
`len(time)` whose boundary resolution succeeded, and equals the emitted
record for those bounds. -/
theorem mem_detectCore {t x : List ℚ} {pk : Peak} (h : pk ∈ detectCore t x) :
    pk.peak_index ∈ find_peaks x ∧ pk.peak_index < t.length ∧
      ∃ s e, resolveBounds t x pk.peak_index = some (s, e) ∧
        pk = emitPeak t x pk.peak_index s e := by
  rcases List.mem_filterMap.mp h with ⟨p, hp, heq⟩
  by_cases hlen : t.length ≤ p
  · rw [if_pos hlen] at heq; cases heq
  · rw [if_neg hlen] at heq
    rcases Option.map_eq_some'.mp heq with ⟨se, hres, hemit⟩
    have hidx : pk.peak_index = p := by rw [← hemit]; rfl
    rw [hidx]
    exact ⟨hp, Nat.lt_of_not_le hlen, se.1, se.2, by simpa using hres, hemit.symm⟩

/-- Resolved bounds always satisfy `start < end < len(time)`: the guard of
the loop rejects every other candidate. -/
theorem resolveBounds_some {t x : List ℚ} {p s e : ℕ}
    (h : resolveBounds t x p = some (s, e)) : s < e ∧ e < t.length := by
  unfold resolveBounds at h
  split at h
  · cases h
  · rename_i hcond
    push_neg at hcond
    obtain ⟨h1, h2⟩ := hcond
    have hs : (0:ℤ) ≤ clampedStart t x p := le_max_left 0 _
    have he : (0:ℤ) ≤ clampedEnd t x p := le_max_left 0 _
    rw [Option.some.injEq, Prod.mk.injEq] at h
    obtain ⟨h4, h5⟩ := h
    omega

/-- Claim C1 counterexample: a mismatched-length input (`len(time) = 3`,
`len(intensity) = 4`) on which `detect_peaks_and_areas` returns a result
rather than failing, contradicting "for every pair with mismatched lengths,
detect fails with InvalidInputError". -/
theorem C1_counterexample :
    ([0, 1, 2] : List ℚ).length ≠ ([0, 10, 0, 0] : List ℚ).length ∧
      (detect_peaks_and_areas [0, 1, 2] [0, 10, 0, 0]).isSome = true := by
  constructor
  · decide
  · with_unfolding_all rfl

/-- Claim C1 (amended): `detect_peaks_and_areas` performs no input
validation and defines no `InvalidInputError`; it fails exactly when the
intensity array is empty (the initial numpy reductions raise there), and for
every nonempty intensity — including mismatched lengths — it returns a
result list. -/
theorem C1_failure_iff_empty_intensity (time x : List ℚ) :
    detect_peaks_and_areas time x = none ↔ x = [] := by
  cases x <;> simp [detect_peaks_and_areas]

/-- Claim C3: every emitted `Peak` of `detect_peaks_and_areas` comes from
successfully resolved bounds `s < e` with both indices inside `[0, N-1]`,
and its `start_time`/`end_time` are taken at those valid trace indices; a
candidate violating the invariant is dropped by `resolveBounds`, never
corrected. -/
theorem C3_bounds_invariant (time x : List ℚ) (peaks : List Peak)
    (hlen : time.length = x.length) (hN : 1 ≤ time.length)
    (hdet : detect_peaks_and_areas time x = some peaks) :
    ∀ pk ∈ peaks, pk.peak_index < time.length ∧
      ∃ s e, resolveBounds time x pk.peak_index = some (s, e) ∧ s < e ∧
        e < time.length ∧ pk.start_time = round2 (time.getD s 0) ∧
        pk.end_time = round2 (time.getD e 0) := by
  intro pk hpk
  have hx : x.isEmpty = false := by
    cases x with
    | nil => rw [List.length_nil] at hlen; omega
    | cons a as => rfl
  unfold detect_peaks_and_areas at hdet
  rw [hx] at hdet
  simp only [Bool.false_eq_true, if_false, Option.some.injEq] at hdet
  subst hdet
  obtain ⟨hfp, hlt, s, e, hres, hemit⟩ := mem_detectCore hpk
  obtain ⟨hse, heN⟩ := resolveBounds_some hres
  exact ⟨hlt, s, e, hres, hse, heN, by rw [hemit]; rfl, by rw [hemit]; rfl⟩

/-- Claim C3 witness at a concrete trace with one detected peak. -/
theorem C3_witness :
    ([0, 1, 2] : List ℚ).length = ([0, 10, 0] : List ℚ).length ∧
      1 ≤ ([0, 1, 2] : List ℚ).length ∧
      detect_peaks_and_areas [0, 1, 2] [0, 10, 0] = some [⟨1, 10, 1, 10, 0, 2⟩] ∧
      (∀ pk ∈ [(⟨1, 10, 1, 10, 0, 2⟩ : Peak)],
        pk.peak_index < ([0, 1, 2] : List ℚ).length ∧
          ∃ s e, resolveBounds [0, 1, 2] [0, 10, 0] pk.peak_index = some (s, e) ∧
            s < e ∧ e < ([0, 1, 2] : List ℚ).length ∧
            pk.start_time = round2 (([0, 1, 2] : List ℚ).getD s 0) ∧
            pk.end_time = round2 (([0, 1, 2] : List ℚ).getD e 0)) :=
  ⟨by decide, by decide, by with_unfolding_all rfl,
    C3_bounds_invariant _ _ _ (by decide) (by decide) (by with_unfolding_all rfl)⟩

/-- Claim C8: the `area` field of every emitted record equals the
trapezoidal integral of `intensity[s : e+1]` against `time[s : e+1]` for its
resolved bounds, rounded to two decimals. -/
theorem C8_area_trapezoid (time x : List ℚ) (peaks : List Peak)
    (hdet : detect_peaks_and_areas time x = some peaks) :
    ∀ pk ∈ peaks, ∃ s e, resolveBounds time x pk.peak_index = some (s, e) ∧
      pk.area = round2 (trapezoid ((x.drop s).take (e + 1 - s))
        ((time.drop s).take (e + 1 - s))) := by
  intro pk hpk
  have hx : x.isEmpty = false := by
    cases x with
    | nil => simp [detect_peaks_and_areas] at hdet
    | cons a as => rfl
  unfold detect_peaks_and_areas at hdet
  rw [hx] at hdet
  simp only [Bool.false_eq_true, if_false, Option.some.injEq] at hdet
  subst hdet
  obtain ⟨_, _, s, e, hres, hemit⟩ := mem_detectCore hpk
  exact ⟨s, e, hres, by rw [hemit]; rfl⟩

/-- Claim C8 witness at a concrete trace with one detected peak
(`area = trapezoid([0,10,0], [0,1,2]) = 10`). -/
theorem C8_witness :
    detect_peaks_and_areas [0, 1, 2] [0, 10, 0] = some [⟨1, 10, 1, 10, 0, 2⟩] ∧
      (∀ pk ∈ [(⟨1, 10, 1, 10, 0, 2⟩ : Peak)],
        ∃ s e, resolveBounds [0, 1, 2] [0, 10, 0] pk.peak_index = some (s, e) ∧
          pk.area = round2 (trapezoid ((([0, 10, 0] : List ℚ).drop s).take (e + 1 - s))
            ((([0, 1, 2] : List ℚ).drop s).take (e + 1 - s)))) :=
  ⟨by with_unfolding_all rfl, C8_area_trapezoid _ _ _ (by with_unfolding_all rfl)⟩

/-- Claim C9: when the intensity array is longer than the time array, no
length error is raised (a result is returned); every `find_peaks` candidate
at or past `len(time)` is silently skipped; and every emitted record has its
apex index and resolved bounds inside `[0, len(time)-1]`. -/
theorem C9_mismatched_lengths (time x : List ℚ)
    (h1 : time.length < x.length) (h2 : 1 ≤ time.length) :
    detect_peaks_and_areas time x = some (detectCore time x) ∧
      (∀ p ∈ find_peaks x, time.length ≤ p →
        ∀ pk ∈ detectCore time x, pk.peak_index ≠ p) ∧
      ∀ pk ∈ detectCore time x, pk.peak_index < time.length ∧
        ∃ s e, resolveBounds time x pk.peak_index = some (s, e) ∧
          s < e ∧ e < time.length := by
  have hx : x.isEmpty = false := by
    cases x with
    | nil => rw [List.length_nil] at h1; omega
    | cons a as => rfl
  refine ⟨?_, ?_, ?_⟩
  · unfold detect_peaks_and_areas
    rw [hx]
    simp
  · intro p hp hple pk hpk
    obtain ⟨_, hlt, _⟩ := mem_detectCore hpk
    exact Nat.ne_of_lt (lt_of_lt_of_le hlt hple)
  · intro pk hpk
    obtain ⟨hfp, hlt, s, e, hres, hemit⟩ := mem_detectCore hpk
    obtain ⟨hse, heN⟩ := resolveBounds_some hres
    exact ⟨hlt, s, e, hres, hse, heN⟩

/-- Claim C9 witness: intensity of length 4 against time of length 3; the
detection succeeds and its conclusions hold. -/
theorem C9_witness :
    ([0, 1, 2] : List ℚ).length < ([0, 10, 0, 0] : List ℚ).length ∧
      1 ≤ ([0, 1, 2] : List ℚ).length ∧
      (detect_peaks_and_areas [0, 1, 2] [0, 10, 0, 0] =
          some (detectCore [0, 1, 2] [0, 10, 0, 0]) ∧
        (∀ p ∈ find_peaks [0, 10, 0, 0], ([0, 1, 2] : List ℚ).length ≤ p →
          ∀ pk ∈ detectCore [0, 1, 2] [0, 10, 0, 0], pk.peak_index ≠ p) ∧
        ∀ pk ∈ detectCore [0, 1, 2] [0, 10, 0, 0],
          pk.peak_index < ([0, 1, 2] : List ℚ).length ∧
            ∃ s e, resolveBounds [0, 1, 2] [0, 10, 0, 0] pk.peak_index = some (s, e) ∧
              s < e ∧ e < ([0, 1, 2] : List ℚ).length) :=
  ⟨by decide, by decide, C9_mismatched_lengths _ _ (by decide) (by decide)⟩

/-- Claim C10: when detection yields an empty peak list, `process_cdf_file`
returns exactly the string `"No peaks found."` and produces no JSON summary
record (it never invokes `summarize_trace`). -/
theorem C10_no_peaks_short_circuit (time x : List ℚ) (filename : String)
    (h : detect_peaks_and_areas time x = some []) :
    process_cdf_file time x filename = some ("No peaks found.", none) := by
  unfold process_cdf_file
  rw [h]
  rfl

/-- Claim C10 witness on a flat three-sample trace. -/
theorem C10_witness :
    detect_peaks_and_areas [0, 1, 2] [5, 5, 5] = some [] ∧
      process_cdf_file [0, 1, 2] [5, 5, 5] "run.cdf" = some ("No peaks found.", none) :=
  ⟨by with_unfolding_all rfl,
    C10_no_peaks_short_circuit _ _ _ (by with_unfolding_all rfl)⟩

/-- Reading a constant list at any in-range index yields the constant. -/
theorem getD_replicate {n i : ℕ} {c : ℚ} (h : i < n) :
    (List.replicate n c).getD i 0 = c := by
  induction n generalizing i with
  | zero => omega
  | succ m ih =>
    cases i with
    | zero => rfl
    | succ j =>
      rw [List.replicate_succ, List.getD_cons_succ]
      exact ih (by omega)

/-- The local-maxima scan over a constant trace finds nothing: no sample is
strictly above its left neighbour. -/
theorem localMaximaGo_replicate (n : ℕ) (c : ℚ) :
    ∀ fuel i, localMaximaGo (List.replicate n c) (n - 1) i fuel = [] := by
  intro fuel
  induction fuel with
  | zero => intro i; rfl
  | succ f ih =>
    intro i
    rw [localMaximaGo]
    by_cases hi : i < n - 1
    · rw [if_pos hi, getD_replicate (show i - 1 < n by omega),
        getD_replicate (show i < n by omega), if_neg (lt_irrefl c)]
      exact ih (i + 1)
    · rw [if_neg hi]

/-- A constant trace has no strict local maxima. -/
theorem localMaxima_replicate (n : ℕ) (c : ℚ) :
    localMaxima (List.replicate n c) = [] := by
  unfold localMaxima
  rw [List.length_replicate]
  exact localMaximaGo_replicate n c n 1

/-- Claim C4: on a flat trace of any positive length, `detect_peaks_and_areas`
returns the empty peak list, and indeed no sample is a strict local maximum. -/
theorem C4_flat_trace (time : List ℚ) (n : ℕ) (c : ℚ) (h : 1 ≤ n) :
    detect_peaks_and_areas time (List.replicate n c) = some [] ∧
      localMaxima (List.replicate n c) = [] := by
  have hmax := localMaxima_replicate n c
  refine ⟨?_, hmax⟩
  have hx : (List.replicate n c).isEmpty = false := by
    cases n with
    | zero => omega
    | succ m => rfl
  unfold detect_peaks_and_areas
  rw [hx]
  simp only [Bool.false_eq_true, if_false, Option.some.injEq]
  unfold detectCore find_peaks distanceFiltered distanceKeep heightFiltered
  rw [hmax]
  simp [selectByPeakDistance, argsortQ, sortOrd, distanceLoop, applyKeep]

/-- Claim C4 witness on a three-sample flat trace. -/
theorem C4_witness :
    1 ≤ 3 ∧
      (detect_peaks_and_areas [0, 1, 2] (List.replicate 3 (7 : ℚ)) = some [] ∧
        localMaxima (List.replicate 3 (7 : ℚ)) = []) :=
  ⟨by decide, C4_flat_trace [0, 1, 2] 3 7 (by decide)⟩










/-- Claim C7: the report string returned by `summarize_trace` is exactly the
newline-join of: the title line containing the label, the total-peak-count
line, the max-intensity line (grouped thousands, two decimals), the baseline
line (grouped thousands, two decimals), a blank line, the header line, and
one line per peak (in descending-height order) formatted
`"- Peak at {retention_time}s | Area: {area} | Height: {height}"`. -/
theorem C7_report_lines (time x : List ℚ) (ps : List Peak) (filename : String) :
    (summarize_trace time x ps filename).1 =
      String.intercalate "\n" (summary_lines time x ps filename) ∧
    summary_lines time x ps filename =
      [ "Chromatogram Summary: " ++ filename
      , "Total peaks detected: " ++ toString ps.length
      , "Max intensity: " ++ fmtGrouped2 (npMax x)
      , "Estimated baseline: " ++ fmtGrouped2 (median x)
      , ""
      , "All the peaks observed in the chromatograph" ]
      ++ (top_peaks ps).map peakLine ∧
    ∀ p : Peak, peakLine p =
      "- Peak at " ++ pyFloatStr p.retention_time ++ "s | Area: "
        ++ pyFloatStr p.area ++ " | Height: " ++ pyFloatStr p.height := by
  have hpair : summarize_trace time x ps filename =
      (String.intercalate "\n" (summary_lines time x ps filename),
        { file_name := filename
        , summary :=
          { total_peaks := ps.length
          , max_intensity := npMax x
          , baseline_intensity := median x
          , peaks := ps }
        , trace_data := time.zip x }) := rfl
  refine ⟨by rw [hpair], rfl, fun _ => rfl⟩

/-- Membership in a stable insertion. -/
theorem mem_insOrd {a b : Peak} {l : List Peak} :
    b ∈ insOrd peakLE a l ↔ b = a ∨ b ∈ l := by
  induction l with
  | nil => simp [insOrd]
  | cons c cs ih =>
    cases hb : peakLE a c with
    | true => simp [insOrd, hb]
    | false =>
      simp [insOrd, hb, ih]
      tauto

/-- Stable insertion preserves the descending-height pairwise order. -/
theorem pairwise_insOrd {a : Peak} {l : List Peak}
    (h : l.Pairwise (fun u v => v.height ≤ u.height)) :
    (insOrd peakLE a l).Pairwise (fun u v => v.height ≤ u.height) := by
  induction l with
  | nil => simp [insOrd]
  | cons c cs ih =>
    rw [List.pairwise_cons] at h
    obtain ⟨hc, hcs⟩ := h
    cases hb : peakLE a c with
    | true =>
      have hca : c.height ≤ a.height := of_decide_eq_true hb
      simp only [insOrd, hb, if_true]
      rw [List.pairwise_cons]
      refine ⟨?_, List.pairwise_cons.mpr ⟨hc, hcs⟩⟩
      intro v hv
      rcases List.mem_cons.mp hv with rfl | hv2
      · exact hca
      · exact le_trans (hc v hv2) hca
    | false =>
      have hac : a.height ≤ c.height := le_of_not_le (of_decide_eq_false hb)
      simp only [insOrd, hb, Bool.false_eq_true, if_false]
      rw [List.pairwise_cons]
      refine ⟨?_, ih hcs⟩
      intro v hv
      rcases mem_insOrd.mp hv with rfl | hv2
      · exact hac
      · exact hc v hv2

/-- The summarizer's sort produces non-increasing heights. -/
theorem pairwise_top_peaks (ps : List Peak) :
    (top_peaks ps).Pairwise (fun u v => v.height ≤ u.height) := by
  unfold top_peaks
  induction ps with
  | nil => simp [sortOrd]
  | cons p l ih =>
    rw [sortOrd]
    exact pairwise_insOrd ih

/-- Filtering on the exact height of the inserted element commutes with a
stable insertion: the inserted element lands in front of every equal-height
element already present. -/
theorem filter_insOrd_eq {c : ℚ} {a : Peak} (l : List Peak) (hc : a.height = c) :
    (insOrd peakLE a l).filter (fun p => decide (p.height = c)) =
      a :: l.filter (fun p => decide (p.height = c)) := by
  induction l with
  | nil => simp [insOrd, hc]
  | cons b bs ih =>
    cases hb : peakLE a b with
    | true =>
      simp only [insOrd, hb, if_true]
      rw [List.filter_cons, if_pos (by simp [hc])]
    | false =>
      have hab : a.height < b.height := lt_of_not_le (of_decide_eq_false hb)
      have hbne : ¬ b.height = c := by rw [← hc]; exact ne_of_gt hab
      simp only [insOrd, hb, Bool.false_eq_true, if_false]
      rw [List.filter_cons, if_neg (by simp [hbne]), ih, List.filter_cons,
        if_neg (by simp [hbne])]

/-- Filtering on a height different from the inserted element's height is
unchanged by the insertion. -/
theorem filter_insOrd_ne {c : ℚ} {a : Peak} (l : List Peak) (hc : ¬ a.height = c) :
    (insOrd peakLE a l).filter (fun p => decide (p.height = c)) =
      l.filter (fun p => decide (p.height = c)) := by
  induction l with
  | nil => simp [insOrd, hc]
  | cons b bs ih =>
    cases hb : peakLE a b with
    | true =>
      simp only [insOrd, hb, if_true]
      rw [List.filter_cons, if_neg (by simp [hc])]
    | false =>
      simp only [insOrd, hb, Bool.false_eq_true, if_false]
      rw [List.filter_cons, ih, List.filter_cons]

/-- Stability of the summarizer's sort: for every height value, the
equal-height peaks appear in the sorted list in their original order. -/
theorem filter_top_peaks (c : ℚ) (ps : List Peak) :
    (top_peaks ps).filter (fun p => decide (p.height = c)) =
      ps.filter (fun p => decide (p.height = c)) := by
  unfold top_peaks
  induction ps with
  | nil => rfl
  | cons p l ih =>
    rw [sortOrd]
    by_cases hc : p.height = c
    · rw [filter_insOrd_eq _ hc, ih, List.filter_cons, if_pos (by simp [hc])]
    · rw [filter_insOrd_ne _ hc, ih, List.filter_cons, if_neg (by simp [hc])]

/-- Claim C6: the per-peak lines of the summarizer report are the sorted
peaks in order; the sort is by non-increasing height; and it is stable —
for every height value the equal-height peaks keep their input order. -/
theorem C6_sorted_stable (time x : List ℚ) (ps : List Peak) (filename : String) :
    (summary_lines time x ps filename).drop 6 = (top_peaks ps).map peakLine ∧
      (top_peaks ps).Pairwise (fun a b => b.height ≤ a.height) ∧
      ∀ c : ℚ, (top_peaks ps).filter (fun p => decide (p.height = c)) =
        ps.filter (fun p => decide (p.height = c)) :=
  ⟨rfl, pairwise_top_peaks ps, fun c => filter_top_peaks c ps⟩


/-- Claim C2 counterexample: on `time = [0,1,2]`, `intensity =
[0,10,9,8,7,0]` the candidate at apex 1 resolves a half-prominence right
boundary of `ceil(30/7) = 5`, which exceeds `len(time) - 1 = 2`; the claim
says such a candidate is not emitted at all, but the code emits it with the
boundary clamped to index 2 (`end_time = 2`). -/
theorem C2_counterexample :
    ((([0, 1, 2] : List ℚ).length : ℤ) - 1 < ⌈rightIpOf [0, 10, 9, 8, 7, 0] 1⌉) ∧
      detect_peaks_and_areas [0, 1, 2] [0, 10, 9, 8, 7, 0] =
        some [⟨1, 10, 1, 14.5, 0, 2⟩] := by
  constructor
  · with_unfolding_all decide
  · with_unfolding_all rfl

/-- Claim C2 (amended): the boundary indices are clamped into
`[0, len(time)-1]` before the rejection test, so the `end_index >= N` branch
can never fire on its own; a candidate whose clamped boundaries satisfy
`start < end` is always kept — even when its interpolated right boundary
exceeded `N - 1`, in which case it is kept with the boundary clamped to
`N - 1`. Rejection happens exactly when the clamped `start >= end`. -/
theorem C2_amended_clamp_and_keep (time x : List ℚ) (p : ℕ)
    (h : clampedStart time x p < clampedEnd time x p) :
    resolveBounds time x p =
      some ((clampedStart time x p).toNat, (clampedEnd time x p).toNat) := by
  have hcs : (0:ℤ) ≤ clampedStart time x p := le_max_left _ _
  have hub : clampedEnd time x p ≤ max 0 ((time.length : ℤ) - 1) := by
    unfold clampedEnd
    exact max_le_max le_rfl (min_le_left _ _)
  have hch := max_choice (0:ℤ) ((time.length : ℤ) - 1)
  have hne : ¬(clampedEnd time x p ≤ clampedStart time x p ∨
      (time.length : ℤ) ≤ clampedEnd time x p) := by
    rintro (hc | hc)
    · omega
    · rcases hch with h0 | h0 <;> omega
  unfold resolveBounds
  rw [if_neg hne]

/-- Claim C2 amended witness, at the counterexample input: the clamped
bounds are `0 < 2` and the candidate is kept with those bounds. -/
theorem C2_amended_witness :
    clampedStart [0, 1, 2] [0, 10, 9, 8, 7, 0] 1 <
        clampedEnd [0, 1, 2] [0, 10, 9, 8, 7, 0] 1 ∧
      resolveBounds [0, 1, 2] [0, 10, 9, 8, 7, 0] 1 =
        some ((clampedStart [0, 1, 2] [0, 10, 9, 8, 7, 0] 1).toNat,
          (clampedEnd [0, 1, 2] [0, 10, 9, 8, 7, 0] 1).toNat) :=
  ⟨by with_unfolding_all decide,
    C2_amended_clamp_and_keep _ _ _ (by with_unfolding_all decide)⟩

/-- Distance selection on two close candidates when the second is higher:
only the second survives. -/
theorem selectTwo_keep_snd (p q : ℕ) (a b : ℚ) (hab : a < b)
    (hclose : (q:ℤ) - (p:ℤ) < 5) :
    applyKeep [p, q] (selectByPeakDistance [p, q] [a, b] 5) = [q] := by
  have harg : argsortQ [a, b] = [0, 1] := by
    unfold argsortQ
    rw [show List.range ([a, b] : List ℚ).length = [0, 1] from rfl]
    simp only [sortOrd, insOrd, List.getD_cons_zero, List.getD_cons_succ]
    simp [hab.le]
  unfold selectByPeakDistance
  rw [harg, show ([0, 1] : List ℕ).reverse = [1, 0] from rfl,
    show List.replicate ([p, q] : List ℕ).length true = [true, true] from rfl]
  simp only [distanceLoop, clearLeftGo, clearRightGo, applyKeep,
    List.getD_cons_zero, List.getD_cons_succ, List.length_cons, List.length_nil,
    List.set_cons_zero, List.set_cons_succ]
  simp [hclose, List.zip, List.filterMap]

/-- Distance selection on two close candidates when the first is higher:
only the first survives. -/
theorem selectTwo_keep_fst (p q : ℕ) (a b : ℚ) (hab : b < a)
    (hclose : (q:ℤ) - (p:ℤ) < 5) :
    applyKeep [p, q] (selectByPeakDistance [p, q] [a, b] 5) = [p] := by
  have harg : argsortQ [a, b] = [1, 0] := by
    unfold argsortQ
    rw [show List.range ([a, b] : List ℚ).length = [0, 1] from rfl]
    simp only [sortOrd, insOrd, List.getD_cons_zero, List.getD_cons_succ]
    simp [not_le.mpr hab]
  unfold selectByPeakDistance
  rw [harg, show ([1, 0] : List ℕ).reverse = [0, 1] from rfl,
    show List.replicate ([p, q] : List ℕ).length true = [true, true] from rfl]
  simp only [distanceLoop, clearLeftGo, clearRightGo, applyKeep,
    List.getD_cons_zero, List.getD_cons_succ, List.length_cons, List.length_nil,
    List.set_cons_zero, List.set_cons_succ]
  simp [hclose, List.zip, List.filterMap]

/-- Claim C5: when exactly two candidates pass the height threshold, their
apexes are fewer than `min_peak_distance = 5` samples apart and their
heights differ, the distance filter retains only the higher one, and every
record in the final detection output has the higher one's apex index (the
lower candidate is suppressed). -/
theorem C5_min_distance_suppression (time x : List ℚ) (p q : ℕ)
    (hpq : p < q) (hHF : heightFiltered x = [p, q]) (hclose : (q:ℤ) - (p:ℤ) < 5)
    (hne : x.getD p 0 ≠ x.getD q 0) :
    distanceFiltered x = [if x.getD p 0 < x.getD q 0 then q else p] ∧
      ∀ pk ∈ detectCore time x,
        pk.peak_index = if x.getD p 0 < x.getD q 0 then q else p := by
  have hDF : distanceFiltered x = [if x.getD p 0 < x.getD q 0 then q else p] := by
    unfold distanceFiltered distanceKeep
    rw [hHF, show ([p, q] : List ℕ).map (fun r => x.getD r 0) =
      [x.getD p 0, x.getD q 0] from rfl]
    rcases lt_or_gt_of_ne hne with hlt | hgt
    · rw [if_pos hlt]
      exact selectTwo_keep_snd p q _ _ hlt hclose
    · rw [if_neg (not_lt.mpr hgt.le)]
      exact selectTwo_keep_fst p q _ _ hgt hclose
  refine ⟨hDF, ?_⟩
  intro pk hpk
  obtain ⟨hfp, _, _⟩ := mem_detectCore hpk
  unfold find_peaks at hfp
  rw [hDF] at hfp
  have hmem := List.mem_of_mem_filter hfp
  simpa using hmem

/-- Claim C5 witness: a 40-sample trace with candidates at apexes 5
(height 9) and 8 (height 10), three samples apart; the higher one (apex 8)
is the only survivor. -/
theorem C5_witness :
    (5 : ℕ) < 8 ∧
      heightFiltered
          (List.replicate 5 (0:ℚ) ++ [9] ++ List.replicate 2 0 ++ [10]
            ++ List.replicate 31 0) = [5, 8] ∧
      ((8:ℤ) - (5:ℤ) < 5) ∧
      (List.replicate 5 (0:ℚ) ++ [9] ++ List.replicate 2 0 ++ [10]
          ++ List.replicate 31 0).getD 5 0 ≠
        (List.replicate 5 (0:ℚ) ++ [9] ++ List.replicate 2 0 ++ [10]
          ++ List.replicate 31 0).getD 8 0 ∧
      (distanceFiltered
          (List.replicate 5 (0:ℚ) ++ [9] ++ List.replicate 2 0 ++ [10]
            ++ List.replicate 31 0) =
          [if (List.replicate 5 (0:ℚ) ++ [9] ++ List.replicate 2 0 ++ [10]
              ++ List.replicate 31 0).getD 5 0 <
              (List.replicate 5 (0:ℚ) ++ [9] ++ List.replicate 2 0 ++ [10]
                ++ List.replicate 31 0).getD 8 0 then 8 else 5] ∧
        ∀ pk ∈ detectCore ((List.range 40).map (fun n => (n : ℚ)))
            (List.replicate 5 (0:ℚ) ++ [9] ++ List.replicate 2 0 ++ [10]
              ++ List.replicate 31 0),
          pk.peak_index =
            if (List.replicate 5 (0:ℚ) ++ [9] ++ List.replicate 2 0 ++ [10]
                ++ List.replicate 31 0).getD 5 0 <
                (List.replicate 5 (0:ℚ) ++ [9] ++ List.replicate 2 0 ++ [10]
                  ++ List.replicate 31 0).getD 8 0 then 8 else 5) :=
  ⟨by decide, by with_unfolding_all rfl, by decide, by with_unfolding_all decide,
    C5_min_distance_suppression _ _ 5 8 (by decide) (by with_unfolding_all rfl)
      (by decide) (by with_unfolding_all decide)⟩
